import Mathlib

/-!
Verification of the food-analysis backend (`food-backend`): a shallow
embedding of the structured-output contract engine
(`app/services/food_analyzer.py`: extraction, JSON repair, structural
validation, fallback) and of the asynchronous job manager
(`app/services/job_manager.py`, `async_handler.py`), together with
theorems settling the specification's claims about them.

Strings are modelled as `List Char`.  Python's `\s` (in the one regex the
repair uses) and `str.strip` are modelled over their ASCII whitespace
cases; the inputs the code meets are model completions, and every claim
below is insensitive to the non-ASCII whitespace corner.
-/

/-- JSON values as produced by Python's `json.loads`.  Numbers are kept
exactly as rationals (`json.loads` would round to binary floats; no claim
here depends on that rounding).  `json.loads` by default also accepts the
non-standard `NaN`, `Infinity` and `-Infinity` tokens, embedded as the
three extra constructors. -/
inductive JVal where
  | jnull : JVal
  | jbool : Bool → JVal
  | jnum : ℚ → JVal
  | jnan : JVal
  | jinf : JVal
  | jneginf : JVal
  | jstr : String → JVal
  | jarr : List JVal → JVal
  | jobj : List (String × JVal) → JVal

/-- Key lookup in a JSON object, with Python `dict` semantics for
duplicate keys (the last binding wins). -/
def objGet (v : JVal) (k : String) : Option JVal :=
  match v with
  | .jobj kvs => (kvs.reverse.find? (fun p => p.1 == k)).map Prod.snd
  | _ => none

/-- The keys of a JSON object (empty for non-objects). -/
def objKeys (v : JVal) : List String :=
  match v with
  | .jobj kvs => kvs.map Prod.fst
  | _ => []

/-- Python `key in dict`. -/
def objHasKey (v : JVal) (k : String) : Bool :=
  (objKeys v).contains k

/-- The six ASCII characters matched by Python's `\s` (and stripped by
`str.strip()`). -/
def isPyWs (c : Char) : Bool :=
  c = ' ' ∨ c = '\t' ∨ c = '\n' ∨ c = '\r' ∨ c = '\x0b' ∨ c = '\x0c'

/-- Python `str.strip()`: drop whitespace from both ends. -/
def pyStrip (l : List Char) : List Char :=
  ((l.dropWhile isPyWs).reverse.dropWhile isPyWs).reverse

/-- Python `s.split('\n')` (keeps empty fields, yields `[""]` on `""`). -/
def splitNl : List Char → List (List Char)
  | [] => [[]]
  | c :: rest =>
    match splitNl rest with
    | [] => [[c]]
    | l :: ls => if c = '\n' then [] :: l :: ls else (c :: l) :: ls

/-- Python `'\n'.join(lines)`. -/
def joinNl (lines : List (List Char)) : List Char :=
  List.intercalate ['\n'] lines

/-- One pass of `re.sub(r',(\s*[}\]])', r'\1', s)`: each comma that is
followed by (greedy) whitespace and then a closing brace or bracket is
deleted; scanning is left-to-right and non-overlapping, resuming after
the matched closer.  The accumulator state `some ws` records a pending
comma whose whitespace run (reversed) is `ws`. -/
def commaSubAux : Option (List Char) → List Char → List Char
  | none, [] => []
  | none, c :: rest =>
    if c = ',' then commaSubAux (some []) rest else c :: commaSubAux none rest
  | some ws, [] => ',' :: ws.reverse
  | some ws, c :: rest =>
    if isPyWs c then commaSubAux (some (c :: ws)) rest
    else if c = '}' ∨ c = ']' then ws.reverse ++ (c :: commaSubAux none rest)
    else if c = ',' then (',' :: ws.reverse) ++ commaSubAux (some []) rest
    else (',' :: ws.reverse) ++ (c :: commaSubAux none rest)

/-- The trailing-comma removal step of `_balance_json_structure`. -/
def commaSub (l : List Char) : List Char :=
  commaSubAux none l

/-- Python `line.endswith(':') or line.endswith(',')`. -/
def endsColonComma (l : List Char) : Bool :=
  l.getLast? = some ':' ∨ l.getLast? = some ','

/-- The signed open-structure count
`s.count('{') + s.count('[') - s.count('}') - s.count(']')`. -/
def openCountI (l : List Char) : Int :=
  ((l.count '{' : Int) + l.count '[') - ((l.count '}' : Int) + l.count ']')

/-- The `for _ in range(open_count)` loop at the end of
`_balance_json_structure`: each iteration appends `'}'` if braces are
unbalanced, else `']'` if brackets are, else nothing, with the counts
recomputed on the grown string; the iteration count is fixed at entry. -/
def closeLoop : Nat → List Char → List Char
  | 0, l => l
  | n + 1, l =>
    closeLoop n
      (if l.count '}' < l.count '{' then l ++ ['}']
       else if l.count ']' < l.count '[' then l ++ [']']
       else l)

/-- `FoodAnalyzer._balance_json_structure`: remove trailing commas before
closers; then, if the (literal) last line, stripped, ends with `':'` or
`','`, drop that line and run the closing loop.  The function's own
`except` wrapper is dead code in the model: no step can raise. -/
def balanceJsonStructure (l : List Char) : List Char :=
  let s1 := commaSub l
  let lines := splitNl s1
  let lastLine := pyStrip (lines.getLastD [])
  if endsColonComma lastLine then
    let s2 := joinNl lines.dropLast
    closeLoop (openCountI s2).toNat s2
  else s1

/-- The closer-appending prefix of `_repair_incomplete_json`: append the
missing `'}'`s (all of them first), then the missing `']'`s. -/
def appendClosers (l : List Char) : List Char :=
  l ++ List.replicate (l.count '{' - l.count '}') '}'
    ++ List.replicate (l.count '[' - l.count ']') ']'

/-- The structural repair: closers appended, then `_balance_json_structure`.
This is the `repair` composition named by the idempotence claim. -/
def repairStruct (l : List Char) : List Char :=
  balanceJsonStructure (appendClosers l)

/-- JSON whitespace skipped by `json.loads` (space, tab, newline, return). -/
def isJsonWs (c : Char) : Bool :=
  c = ' ' ∨ c = '\t' ∨ c = '\n' ∨ c = '\r'

/-- Skip JSON whitespace. -/
def skipJWs (l : List Char) : List Char :=
  l.dropWhile isJsonWs

/-- Match a literal character sequence, returning the remainder. -/
def stripPref : List Char → List Char → Option (List Char)
  | [], cs => some cs
  | p :: ps, c :: cs => if c = p then stripPref ps cs else none
  | _ :: _, [] => none

/-- Value of a hexadecimal digit. -/
def hexVal (c : Char) : Option Nat :=
  if '0' ≤ c ∧ c ≤ '9' then some (c.toNat - 48)
  else if 'a' ≤ c ∧ c ≤ 'f' then some (c.toNat - 87)
  else if 'A' ≤ c ∧ c ≤ 'F' then some (c.toNat - 55)
  else none

/-- Value of a four-digit hexadecimal escape. -/
def hex4 (a b c d : Char) : Option Nat :=
  match hexVal a, hexVal b, hexVal c, hexVal d with
  | some x, some y, some z, some w => some (((x * 16 + y) * 16 + z) * 16 + w)
  | _, _, _, _ => none

/-- Body of a JSON string after the opening quote, per Python's strict
`scanstring`: standard escapes, `\uXXXX` with surrogate-pair combining,
raw control characters rejected.  One simplification at a corner CPython
tolerates: a lone UTF-16 surrogate escape (which CPython keeps as a
surrogate code point in the `str`) is rejected here, since Lean's `Char`
holds only scalar values; no claim below touches that corner. -/
def parseJStrAux : List Char → List Char → Option (String × List Char)
  | _, [] => none
  | acc, c :: rest =>
    if c = '"' then some (String.mk acc.reverse, rest)
    else if c = '\\' then
      match rest with
      | [] => none
      | e :: r2 =>
        if e = '"' then parseJStrAux ('"' :: acc) r2
        else if e = '\\' then parseJStrAux ('\\' :: acc) r2
        else if e = '/' then parseJStrAux ('/' :: acc) r2
        else if e = 'b' then parseJStrAux ('\x08' :: acc) r2
        else if e = 'f' then parseJStrAux ('\x0c' :: acc) r2
        else if e = 'n' then parseJStrAux ('\n' :: acc) r2
        else if e = 'r' then parseJStrAux ('\r' :: acc) r2
        else if e = 't' then parseJStrAux ('\t' :: acc) r2
        else if e = 'u' then
          match r2 with
          | h1 :: h2 :: h3 :: h4 :: r3 =>
            match hex4 h1 h2 h3 h4 with
            | none => none
            | some n =>
              if 0xD800 ≤ n ∧ n ≤ 0xDBFF then
                match r3 with
                | '\\' :: 'u' :: g1 :: g2 :: g3 :: g4 :: r5 =>
                  match hex4 g1 g2 g3 g4 with
                  | some m =>
                    if 0xDC00 ≤ m ∧ m ≤ 0xDFFF then
                      parseJStrAux
                        (Char.ofNat (0x10000 + (n - 0xD800) * 0x400 + (m - 0xDC00)) :: acc) r5
                    else none
                  | none => none
                | _ => none
              else if 0xDC00 ≤ n ∧ n ≤ 0xDFFF then none
              else parseJStrAux (Char.ofNat n :: acc) r3
          | _ => none
        else none
    else if c.toNat < 0x20 then none
    else parseJStrAux (c :: acc) rest

/-- Parse a JSON string after its opening quote. -/
def parseJStr (l : List Char) : Option (String × List Char) :=
  parseJStrAux [] l

/-- Decimal value of a digit list. -/
def digitsVal (l : List Char) : Nat :=
  l.foldl (fun a c => a * 10 + (c.toNat - 48)) 0

/-- A JSON number at the head of the input, per the scanner's regex
`(-?(?:0|[1-9]\d*))(\.\d+)?([eE][-+]?\d+)?`: the longest match is taken
and the value is returned exactly as a rational. -/
def parseNum (cs : List Char) : Option (JVal × List Char) :=
  let sign := match cs with | '-' :: r => (true, r) | _ => (false, cs)
  let neg := sign.1
  let cs1 := sign.2
  match cs1 with
  | [] => none
  | d :: _ =>
    if ¬ d.isDigit then none
    else
      let ipart :=
        if d = '0' then (([d] : List Char), cs1.tail)
        else (cs1.takeWhile Char.isDigit, cs1.dropWhile Char.isDigit)
      let r1 := ipart.2
      let fpart :=
        match r1 with
        | '.' :: r =>
          let ds := r.takeWhile Char.isDigit
          if ds.isEmpty then (([] : List Char), r1) else (ds, r.dropWhile Char.isDigit)
        | _ => ([], r1)
      let fr := fpart.1
      let r2 := fpart.2
      let epart :=
        match r2 with
        | e :: r =>
          if e = 'e' ∨ e = 'E' then
            let se := match r with
              | '+' :: q => (false, q)
              | '-' :: q => (true, q)
              | _ => (false, r)
            let ds := se.2.takeWhile Char.isDigit
            if ds.isEmpty then (false, ([] : List Char), r2)
            else (se.1, ds, se.2.dropWhile Char.isDigit)
          else (false, ([] : List Char), r2)
        | [] => (false, ([] : List Char), r2)
      let ip : ℚ := digitsVal ipart.1
      let fq : ℚ := (digitsVal fr : ℚ) / (10 : ℚ) ^ fr.length
      let ex : ℤ := if epart.1 then -(digitsVal epart.2.1 : ℤ) else (digitsVal epart.2.1 : ℤ)
      let mag : ℚ := (ip + fq) * (10 : ℚ) ^ ex
      some (.jnum (if neg then -mag else mag), epart.2.2)

mutual

/-- One JSON value at the head of the input (fuel-indexed; the fuel is
ample at the top-level entry point, so running out never decides a claim). -/
def parseVal : Nat → List Char → Option (JVal × List Char)
  | 0, _ => none
  | fuel + 1, cs =>
    match cs with
    | [] => none
    | c :: rest =>
      if c = '"' then (parseJStr rest).map (fun p => (JVal.jstr p.1, p.2))
      else if c = '{' then parseObjBody fuel (skipJWs rest)
      else if c = '[' then parseArrBody fuel (skipJWs rest)
      else if c = 'n' then (stripPref ['u', 'l', 'l'] rest).map (fun r => (JVal.jnull, r))
      else if c = 't' then (stripPref ['r', 'u', 'e'] rest).map (fun r => (JVal.jbool true, r))
      else if c = 'f' then (stripPref ['a', 'l', 's', 'e'] rest).map (fun r => (JVal.jbool false, r))
      else if c = 'N' then (stripPref ['a', 'N'] rest).map (fun r => (JVal.jnan, r))
      else if c = 'I' then
        (stripPref ['n', 'f', 'i', 'n', 'i', 't', 'y'] rest).map (fun r => (JVal.jinf, r))
      else if c = '-' ∧ rest.head? = some 'I' then
        (stripPref ['I', 'n', 'f', 'i', 'n', 'i', 't', 'y'] rest).map (fun r => (JVal.jneginf, r))
      else parseNum cs

/-- Object body after `'{'` and whitespace. -/
def parseObjBody : Nat → List Char → Option (JVal × List Char)
  | 0, _ => none
  | fuel + 1, cs =>
    match cs with
    | '}' :: rest => some (.jobj [], rest)
    | _ => parseMembers fuel cs []

/-- Members of an object: `"key" : value` pairs separated by commas. -/
def parseMembers : Nat → List Char → List (String × JVal) → Option (JVal × List Char)
  | 0, _, _ => none
  | fuel + 1, cs, acc =>
    match cs with
    | '"' :: rest =>
      match parseJStr rest with
      | none => none
      | some (k, r1) =>
        match skipJWs r1 with
        | ':' :: r3 =>
          match parseVal fuel (skipJWs r3) with
          | none => none
          | some (v, r4) =>
            match skipJWs r4 with
            | ',' :: r6 => parseMembers fuel (skipJWs r6) (acc ++ [(k, v)])
            | '}' :: r6 => some (.jobj (acc ++ [(k, v)]), r6)
            | _ => none
        | _ => none
    | _ => none

/-- Array body after `'['` and whitespace. -/
def parseArrBody : Nat → List Char → Option (JVal × List Char)
  | 0, _ => none
  | fuel + 1, cs =>
    match cs with
    | ']' :: rest => some (.jarr [], rest)
    | _ => parseElems fuel cs []

/-- Elements of an array, separated by commas. -/
def parseElems : Nat → List Char → List JVal → Option (JVal × List Char)
  | 0, _, _ => none
  | fuel + 1, cs, acc =>
    match parseVal fuel cs with
    | none => none
    | some (v, r1) =>
      match skipJWs r1 with
      | ',' :: r3 => parseElems fuel (skipJWs r3) (acc ++ [v])
      | ']' :: r3 => some (.jarr (acc ++ [v]), r3)
      | _ => none

end

/-- Python `json.loads`: one JSON document with nothing but whitespace
around it. -/
def pyJsonLoads (l : List Char) : Option JVal :=
  match parseVal (4 * l.length + 8) (skipJWs l) with
  | some (v, rest) => if (skipJWs rest).isEmpty then some v else none
  | none => none

/-- `FoodAnalyzer._repair_incomplete_json`: run the structural repair,
then verify the result with `json.loads`; return the repaired string only
when it now parses, `None` otherwise.  (Its outer `except` is dead code:
no repair step raises.) -/
def repairIncompleteJson (l : List Char) : Option (List Char) :=
  let r := repairStruct l
  if (pyJsonLoads r).isSome then some r else none

/-- The required top-level keys of each food record
(`_validate_response_structure`). -/
def requiredFoodKeys : List String :=
  ["food_name", "meal_type", "serving", "ingredients", "nutrients_g"]

/-- The `serving` sub-check: a dict containing `description` and `grams`. -/
def servingOk (sv : JVal) : Bool :=
  match sv with
  | .jobj _ => objHasKey sv "description" && objHasKey sv "grams"
  | _ => false

/-- The per-item checks of `_validate_response_structure`: the item is a
dict with every required key, `serving` is a dict holding `description`
and `grams`, `ingredients` is a non-empty list, and `nutrients_g` is a
dict.  (Python's `.get` defaults, `{}` and `[]`, are modelled and fail
the respective checks just as in the source.) -/
def foodItemOk (it : JVal) : Bool :=
  match it with
  | .jobj _ =>
    requiredFoodKeys.all (objHasKey it) &&
    servingOk ((objGet it "serving").getD (.jobj [])) &&
    (match (objGet it "ingredients").getD (.jarr []) with
     | .jarr l => !l.isEmpty
     | _ => false) &&
    (match (objGet it "nutrients_g").getD (.jobj []) with
     | .jobj _ => true
     | _ => false)
  | _ => false

/-- `FoodAnalyzer._validate_response_structure`: a list of exactly the
expected number of items, each passing `foodItemOk`.  Its `except`
wrapper is dead code in the model (no step raises), and the early
returns are the short-circuit of `&&`. -/
def validateResponseStructure (data : JVal) (expectedCount : Nat) : Bool :=
  match data with
  | .jarr items => items.length == expectedCount && items.all foodItemOk
  | _ => false

/-- One food item of a request: `{"food_name": ..., "meal_type": ...}`. -/
structure Food where
  foodName : String
  mealType : String

/-- `FoodAnalyzer._get_fallback_comprehensive_response`: the
deterministic fallback record for one food. -/
def fallbackFoodRecord (f : Food) : JVal :=
  .jobj
    [("food_name", .jstr f.foodName),
     ("meal_type", .jstr f.mealType),
     ("serving", .jobj
        [("description", .jstr "Analysis temporarily unavailable"),
         ("grams", .jnum 0)]),
     ("ingredients", .jarr
        [.jobj [("name", .jstr "Analysis temporarily unavailable"),
                ("portion_percent", .jnum 100)]]),
     ("nutrients_g", .jobj
        [("protein_g", .jobj
           [("full_name", .jstr "Protein"),
            ("class", .jstr "macronutrient"),
            ("impact", .jstr "positive"),
            ("total_g", .jnum 0),
            ("by_ingredient", .jarr [])])])]

/-- The deterministic fallback list, one record per requested food. -/
def fallbackComprehensive (foods : List Food) : List JVal :=
  foods.map fallbackFoodRecord

/-- Exceptions that can escape `_analyze_foods_with_comprehensive_prompt`
for a delivered completion: the re-raised `json.JSONDecodeError`, and the
`UnboundLocalError` hit when extraction finds no `'['` or `']'` (the
`except` handler then reads the never-assigned `json_content`). -/
inductive AnalyzeErr where
  | jsonDecode : AnalyzeErr
  | unboundLocal : AnalyzeErr

/-- Index of the first occurrence of a character (Python `str.find`,
with `None` for `-1`). -/
def findCh (l : List Char) (c : Char) : Option Nat :=
  l.findIdx? (· = c)

/-- Index of the last occurrence of a character (Python `str.rfind`). -/
def rfindCh (l : List Char) (c : Char) : Option Nat :=
  match l.reverse.findIdx? (· = c) with
  | some i => some (l.length - 1 - i)
  | none => none

/-- The repair-and-reparse path of the `except json.JSONDecodeError`
handler: repair the extracted slice, re-parse, re-validate; any failure
re-raises the original decode error. -/
def analyzeRepairPath (jsonContent : List Char) (expectedCount : Nat) :
    Except AnalyzeErr (List JVal) :=
  match repairIncompleteJson jsonContent with
  | some rep =>
    match pyJsonLoads rep with
    | some (.jarr items) =>
      if validateResponseStructure (.jarr items) expectedCount then .ok items
      else .error .jsonDecode
    | _ => .error .jsonDecode
  | none => .error .jsonDecode

/-- `FoodAnalyzer._analyze_foods_with_comprehensive_prompt`, from the
point where the model's completion text is in hand (the network call is
the external boundary): strip, slice from the first `'['` to the last
`']'`, parse, validate; on failure repair once and retry; every failure
path raises (is an `.error`), caught by the caller. -/
def analyzeWithComprehensivePrompt (completion : List Char) (foods : List Food) :
    Except AnalyzeErr (List JVal) :=
  let rt := pyStrip completion
  match findCh rt '[', rfindCh rt ']' with
  | none, _ => .error .unboundLocal
  | some _, none => .error .unboundLocal
  | some jsonStart, some lastIdx =>
    let jsonEnd := lastIdx + 1
    let jsonContent := (rt.drop jsonStart).take (jsonEnd - jsonStart)
    match pyJsonLoads jsonContent with
    | some (.jarr items) =>
      if validateResponseStructure (.jarr items) foods.length then .ok items
      else analyzeRepairPath jsonContent foods.length
    | some _ => analyzeRepairPath jsonContent foods.length
    | none => analyzeRepairPath jsonContent foods.length

/-- `FoodAnalyzer.analyze_foods_comprehensive` (live path, `use_mock`
false, completion delivered): any exception from the prompt path is
caught and replaced by the deterministic fallback; the function always
returns a value. -/
def analyzeFoodsComprehensive (completion : List Char) (foods : List Food) : List JVal :=
  match analyzeWithComprehensivePrompt completion foods with
  | .ok items => items
  | .error _ => fallbackComprehensive foods

/-- A stored job record, as an attribute map with optional fields: both a
DynamoDB item and an entry of the in-process `local_jobs` dict carry
exactly the attributes that have been written (an upserted DynamoDB item
has no `job_data`/`created_at`; a record never completed has no
`result`). -/
structure Item where
  jobId : Option String
  status : Option String
  jobData : Option JVal
  createdAt : Option Nat
  updatedAt : Option Nat
  result : Option JVal
  error : Option String

/-- Replace-or-insert into an association list keyed by `job_id`
(Python dict assignment / DynamoDB `put_item`). -/
def alPut (k : String) (v : Item) (l : List (String × Item)) : List (String × Item) :=
  (k, v) :: l.filter (fun p => p.1 ≠ k)

/-- The `JobManager`'s store state: the primary DynamoDB table and the
in-process `local_jobs` fallback map.  `aws_available` is fixed at
construction; per-call primary failures are the explicit `Bool`
parameters of each operation. -/
structure JMState where
  primary : List (String × Item)
  localJobs : List (String × Item)

/-- The empty store. -/
def emptyJM : JMState := ⟨[], []⟩

/-- The full record `create_job` writes: status `queued`, the payload,
both timestamps, no result or error. -/
def newJobItem (jobId : String) (jobData : JVal) (t : Nat) : Item :=
  ⟨some jobId, some "queued", some jobData, some t, some t, none, none⟩

/-- `JobManager.create_job` (store effect; the SQS send touches no store
state).  AWS mode: `put_item` to the primary; if that raises
(`putFails`), the record goes to `local_jobs` instead.  Local mode: the
record goes to `local_jobs`. -/
def createJob (aws putFails : Bool) (s : JMState) (jobId : String) (jobData : JVal)
    (t : Nat) : JMState :=
  let it := newJobItem jobId jobData t
  if aws then
    if putFails then { s with localJobs := alPut jobId it s.localJobs }
    else { s with primary := alPut jobId it s.primary }
  else { s with localJobs := alPut jobId it s.localJobs }

/-- `JobManager.get_job_status`.  AWS mode: `get_item` on the primary —
a missing item is `None` (the fallback map is NOT consulted); only a
raised exception (`getFails`) falls back to `local_jobs`.  Local mode:
`local_jobs` directly. -/
def getJobStatus (aws getFails : Bool) (s : JMState) (jobId : String) : Option Item :=
  if aws then
    if getFails then s.localJobs.lookup jobId else s.primary.lookup jobId
  else s.localJobs.lookup jobId

/-- Python `dict.update(update_data)` on a stored record: `status` and
`updated_at` always overwrite; `result`/`error` overwrite only when the
call passed them (DynamoDB's dynamically-built `SET` expression has the
same semantics). -/
def mergeUpdate (it : Item) (st : String) (res : Option JVal) (err : Option String)
    (t : Nat) : Item :=
  { it with
    status := some st
    updatedAt := some t
    result := match res with | some r => some r | none => it.result
    error := match err with | some e => some e | none => it.error }

/-- DynamoDB `update_item` on a key that may be absent: an upsert that
creates an item holding only the key and the SET attributes. -/
def upsertPrimary (s : List (String × Item)) (jobId : String) (st : String)
    (res : Option JVal) (err : Option String) (t : Nat) : List (String × Item) :=
  match s.lookup jobId with
  | some it => alPut jobId (mergeUpdate it st res err t) s
  | none => alPut jobId ⟨some jobId, some st, none, none, some t, res, err⟩ s

/-- `JobManager.update_job_status`, returning the new state and the
function's `bool` result.  AWS mode: `update_item` on the primary
(an unconditional overwrite-upsert); if it raises (`updFails`), the
update is applied to `local_jobs` only when the job is already there,
else it returns `False` and the write is dropped.  Local mode: the same
`local_jobs` logic. -/
def updateJobStatus (aws updFails : Bool) (s : JMState) (jobId : String) (st : String)
    (res : Option JVal) (err : Option String) (t : Nat) : JMState × Bool :=
  if aws then
    if updFails then
      match s.localJobs.lookup jobId with
      | some it =>
        ({ s with localJobs := alPut jobId (mergeUpdate it st res err t) s.localJobs }, true)
      | none => (s, false)
    else ({ s with primary := upsertPrimary s.primary jobId st res err t }, true)
  else
    match s.localJobs.lookup jobId with
    | some it =>
      ({ s with localJobs := alPut jobId (mergeUpdate it st res err t) s.localJobs }, true)
    | none => (s, false)

/-- One observable operation against the job store.  The `Bool` fields
are the per-call primary-backend failures. -/
inductive JMOp where
  | create (jobId : String) (jobData : JVal) (t : Nat) (putFails : Bool)
  | update (jobId : String) (st : String) (res : Option JVal) (err : Option String)
      (t : Nat) (updFails : Bool)
  | read (jobId : String) (getFails : Bool)

/-- State after one operation. -/
def jmStep (aws : Bool) (s : JMState) : JMOp → JMState
  | .create jid jd t pf => createJob aws pf s jid jd t
  | .update jid st res err t uf => (updateJobStatus aws uf s jid st res err t).1
  | .read _ _ => s

/-- The job statuses a given `job_id`'s reads observe along a run:
each `read` of that id that returns a record with a `status` attribute
contributes that status. -/
def observedStatuses (aws : Bool) (j : String) (s : JMState) : List JMOp → List String
  | [] => []
  | .read jid gf :: ops =>
    if jid = j then
      match (getJobStatus aws gf s jid).bind Item.status with
      | some st => st :: observedStatuses aws j s ops
      | none => observedStatuses aws j s ops
    else observedStatuses aws j s ops
  | op :: ops => observedStatuses aws j (jmStep aws s op) ops

/-- The status currently stored for a job in the local map. -/
def storedStatus (s : JMState) (j : String) : Option String :=
  (s.localJobs.lookup j).bind Item.status

/-- The spec's forward order on job statuses:
`queued → processing → completed | failed`, with the two terminal states
absorbing.  Reflexive and transitive; `statusLe t x` for terminal `t`
forces `x = t`. -/
def statusLe (a b : String) : Bool :=
  a = b
    ∨ (a = "queued" ∧ (b = "processing" ∨ b = "completed" ∨ b = "failed"))
    ∨ (a = "processing" ∧ (b = "completed" ∨ b = "failed"))

/-- A trace discipline for the amended monotonicity claim, in local mode:
every `create` of the watched job happens when no record for it exists,
and every `update` of it writes a status that follows the currently
stored one in the forward order.  Operations on other job ids are
unconstrained. -/
inductive ValidLocalTrace (j : String) : JMState → List JMOp → Prop
  | nil (s : JMState) : ValidLocalTrace j s []
  | createOp (s : JMState) (jid : String) (jd : JVal) (t : Nat) (pf : Bool)
      (ops : List JMOp)
      (hfresh : jid = j → s.localJobs.lookup j = none)
      (htail : ValidLocalTrace j (jmStep false s (.create jid jd t pf)) ops) :
      ValidLocalTrace j s (.create jid jd t pf :: ops)
  | updateOp (s : JMState) (jid st : String) (res : Option JVal) (err : Option String)
      (t : Nat) (uf : Bool) (ops : List JMOp)
      (hord : jid = j →
        (match storedStatus s j with
         | some old => statusLe old st
         | none => true) = true)
      (htail : ValidLocalTrace j (jmStep false s (.update jid st res err t uf)) ops) :
      ValidLocalTrace j s (.update jid st res err t uf :: ops)
  | readOp (s : JMState) (jid : String) (gf : Bool) (ops : List JMOp)
      (htail : ValidLocalTrace j s ops) :
      ValidLocalTrace j s (.read jid gf :: ops)

/-- The store writes `process_food_analysis` performs for one delivered
`food_analysis` message whose completion text arrives: mark the job
`processing`, run the comprehensive analysis (total — every parse or
validation failure ends in the fallback value), and mark the job
`completed` with the result.  `convert_floats_to_decimals` re-tags the
numeric leaves for DynamoDB and cannot raise, so the result is stored
here as its JSON value. -/
def processFoodAnalysisRun (aws uf1 uf2 : Bool) (s : JMState) (jobId : String)
    (foods : List Food) (completion : List Char) (t1 t2 : Nat) : JMState :=
  let s1 := (updateJobStatus aws uf1 s jobId "processing" none none t1).1
  let result := analyzeFoodsComprehensive completion foods
  (updateJobStatus aws uf2 s1 jobId "completed" (some (.jarr result)) none t2).1

/-- Modelled from the spec: the invariant (portions) measure — the sum of
`portion_percent` over a food record's `ingredients` (0 for absent or
non-numeric entries).  This follows the spec's words for comparison with
the code's validator, which is `validateResponseStructure` above. -/
def specPortionSum (item : JVal) : ℚ :=
  match objGet item "ingredients" with
  | some (.jarr l) =>
    (l.map (fun ing =>
      match objGet ing "portion_percent" with
      | some (.jnum q) => q
      | _ => 0)).sum
  | _ => 0

/-- Modelled from the spec (amended): the purely structural acceptance
condition for one food record — required keys present, `serving` an
object holding `description` and `grams`, `ingredients` a non-empty
array, `nutrients_g` an object; no numeric recomputation. -/
def foodItemStructSpec (it : JVal) : Prop :=
  (∃ kvs, it = .jobj kvs) ∧
  (∀ k ∈ requiredFoodKeys, objHasKey it k = true) ∧
  (∃ skvs, objGet it "serving" = some (.jobj skvs) ∧
    objHasKey (.jobj skvs) "description" = true ∧ objHasKey (.jobj skvs) "grams" = true) ∧
  (∃ ings, objGet it "ingredients" = some (.jarr ings) ∧ ings ≠ []) ∧
  (∃ nkvs, objGet it "nutrients_g" = some (.jobj nkvs))

/-- 2-adic valuation of a positive number (fuel-indexed so it computes
in the kernel; the fuel `n` always suffices for argument `n`). -/
def twoValAux : Nat → Nat → Nat
  | 0, _ => 0
  | fuel + 1, n => if n % 2 = 0 ∧ n ≠ 0 then twoValAux fuel (n / 2) + 1 else 0

/-- 2-adic valuation. -/
def twoVal (n : Nat) : Nat :=
  twoValAux n n

/-- Whether a rational is the exact value of a finite IEEE-754 binary64
float: `m * 2^e` with `|m| ≤ 2^53 - 1` and `-1074 ≤ e ≤ 971`.  The
denominator test confines the powers of two; the mantissa is read off at
the largest usable exponent. -/
def ReprQB (q : ℚ) : Bool :=
  if q.num = 0 then true
  else
    -- the denominator must be a power of two no larger than 2^1074
    let t := twoVal q.den
    if ¬(q.den = 2 ^ t ∧ t ≤ 1074) then false
    else
      -- with `q.den = 2^t`, the exact mantissa at the largest usable
      -- exponent `e = min 971 (a - t)` is `|num| / 2^(t+e)`, an exact
      -- power-of-two division since `t + e ≤ a`, the 2-adic valuation
      -- of `num`
      let a := twoVal q.num.natAbs
      let e : Int := min 971 ((a : Int) - t)
      q.num.natAbs / 2 ^ ((t : Int) + e).toNat ≤ 2 ^ 53 - 1

/-- A Python float: a finite binary64 value, identified by its exact
rational value (Python floats with equal value are equal). -/
def F64 := { q : ℚ // ReprQB q = true }

/-- `Decimal(str(f))` for a float `f`.  Python's `str(f)` is the shortest
decimal numeral that converts back to exactly `f`; any decimal numeral
with that property yields the round-trip below, and the model uses the
exact decimal expansion of `f` (every binary64 value has one), which is
in that class. -/
def decimalOfFloat (f : F64) : ℚ := f.val

/-- `float(d)` for a Decimal `d`: IEEE round-to-nearest, which is the
identity on values that are already representable — the only property
the round-trip claim uses, and the only case it ever reaches (the
Decimals crossing the boundary are images of floats).  Non-representable
arguments never arise in the claims below; the model totalizes them to
zero. -/
def floatOfDecimal (d : ℚ) : F64 :=
  if h : ReprQB d = true then ⟨d, h⟩ else ⟨0, by decide⟩

mutual

/-- A Python value of the JSON-like shape crossing the async boundary:
dicts, lists, floats, Decimals, and other scalars. -/
inductive PyVal where
  | pnone : PyVal
  | pbool : Bool → PyVal
  | pint : Int → PyVal
  | pstr : String → PyVal
  | pfloat : F64 → PyVal
  | pdec : ℚ → PyVal
  | plist : PyList → PyVal
  | pdict : PyDict → PyVal

/-- A Python list of such values. -/
inductive PyList where
  | nil : PyList
  | cons : PyVal → PyList → PyList

/-- A Python dict of such values (keys in insertion order). -/
inductive PyDict where
  | nil : PyDict
  | cons : String → PyVal → PyDict → PyDict

end

mutual

/-- `async_handler.convert_floats_to_decimals`: floats become
`Decimal(str(f))`; dicts and lists are rebuilt; everything else passes
through. -/
def convFloatsToDecimals : PyVal → PyVal
  | .pfloat f => .pdec (decimalOfFloat f)
  | .plist l => .plist (convFloatsToDecimalsL l)
  | .pdict d => .pdict (convFloatsToDecimalsD d)
  | v => v

/-- List case of `convert_floats_to_decimals`. -/
def convFloatsToDecimalsL : PyList → PyList
  | .nil => .nil
  | .cons v tl => .cons (convFloatsToDecimals v) (convFloatsToDecimalsL tl)

/-- Dict case of `convert_floats_to_decimals`. -/
def convFloatsToDecimalsD : PyDict → PyDict
  | .nil => .nil
  | .cons k v tl => .cons k (convFloatsToDecimals v) (convFloatsToDecimalsD tl)

end

mutual

/-- `app.routes.api.convert_decimals_to_floats`: Decimals become
`float(d)`; dicts and lists are rebuilt; everything else passes
through. -/
def convDecimalsToFloats : PyVal → PyVal
  | .pdec d => .pfloat (floatOfDecimal d)
  | .plist l => .plist (convDecimalsToFloatsL l)
  | .pdict d => .pdict (convDecimalsToFloatsD d)
  | v => v

/-- List case of `convert_decimals_to_floats`. -/
def convDecimalsToFloatsL : PyList → PyList
  | .nil => .nil
  | .cons v tl => .cons (convDecimalsToFloats v) (convDecimalsToFloatsL tl)

/-- Dict case of `convert_decimals_to_floats`. -/
def convDecimalsToFloatsD : PyDict → PyDict
  | .nil => .nil
  | .cons k v tl => .cons k (convDecimalsToFloats v) (convDecimalsToFloatsD tl)

end

mutual

/-- No `Decimal` leaf anywhere (the claim's domain: values built from
dicts, lists, floats, and scalars that are neither float nor Decimal). -/
def noDecimalV : PyVal → Prop
  | .pdec _ => False
  | .plist l => noDecimalL l
  | .pdict d => noDecimalD d
  | _ => True

/-- List case of `noDecimalV`. -/
def noDecimalL : PyList → Prop
  | .nil => True
  | .cons v tl => noDecimalV v ∧ noDecimalL tl

/-- Dict case of `noDecimalV`. -/
def noDecimalD : PyDict → Prop
  | .nil => True
  | .cons _ v tl => noDecimalV v ∧ noDecimalD tl

end

mutual

/-- The structural skeleton of a Python value: keys, list order and
non-numeric leaves kept; float and Decimal leaves both collapse to a
numeric marker. -/
inductive Skel where
  | snone : Skel
  | sbool : Bool → Skel
  | sint : Int → Skel
  | sstr : String → Skel
  | snum : Skel
  | slist : SkelList → Skel
  | sdict : SkelDict → Skel

/-- Skeletons of lists. -/
inductive SkelList where
  | nil : SkelList
  | cons : Skel → SkelList → SkelList

/-- Skeletons of dicts. -/
inductive SkelDict where
  | nil : SkelDict
  | cons : String → Skel → SkelDict → SkelDict

end

mutual

/-- Skeleton of a value. -/
def skelV : PyVal → Skel
  | .pnone => .snone
  | .pbool b => .sbool b
  | .pint n => .sint n
  | .pstr s => .sstr s
  | .pfloat _ => .snum
  | .pdec _ => .snum
  | .plist l => .slist (skelL l)
  | .pdict d => .sdict (skelD d)

/-- Skeleton of a list. -/
def skelL : PyList → SkelList
  | .nil => .nil
  | .cons v tl => .cons (skelV v) (skelL tl)

/-- Skeleton of a dict. -/
def skelD : PyDict → SkelDict
  | .nil => .nil
  | .cons k v tl => .cons k (skelV v) (skelD tl)

end

/-! ## Helper lemmas -/

/-- Rounding the decimal image of a float recovers the float: round to
nearest is the identity on representable values. -/
theorem floatOfDecimal_decimalOfFloat (f : F64) : floatOfDecimal (decimalOfFloat f) = f := by
  unfold floatOfDecimal decimalOfFloat
  rw [dif_pos f.property]
  rfl

/-- Looking up the key just written. -/
theorem lookup_alPut_self (k : String) (v : Item) (l : List (String × Item)) :
    (alPut k v l).lookup k = some v := by
  simp [alPut, List.lookup]

/-- Filtering out another key leaves a lookup unchanged. -/
theorem lookup_filter_ne (k k' : String) (l : List (String × Item)) (h : k' ≠ k) :
    (l.filter (fun p => p.1 ≠ k)).lookup k' = l.lookup k' := by
  induction l with
  | nil => simp
  | cons p t ih =>
    simp only [ne_eq, decide_not] at ih ⊢
    by_cases hp : p.1 = k
    · have h2 : (k' == k) = false := beq_eq_false_iff_ne.mpr h
      simp [List.filter_cons, hp, List.lookup, h2, ih]
    · by_cases hk : k' = p.1
      · simp [List.filter_cons, hp, List.lookup, hk]
      · have h2 : (k' == p.1) = false := beq_eq_false_iff_ne.mpr hk
        simp [List.filter_cons, hp, List.lookup, h2, ih]

/-- Writing one key leaves other lookups unchanged. -/
theorem lookup_alPut_ne (k k' : String) (v : Item) (l : List (String × Item))
    (h : k' ≠ k) : (alPut k v l).lookup k' = l.lookup k' := by
  have h2 : (k' == k) = false := beq_eq_false_iff_ne.mpr h
  have h3 := lookup_filter_ne k k' l h
  simp only [ne_eq, decide_not] at h3
  simp [alPut, List.lookup, h2, h3]

/-- The forward status order is reflexive. -/
theorem statusLe_refl (a : String) : statusLe a a = true := by
  simp [statusLe]

/-- The forward status order is transitive. -/
theorem statusLe_trans (a b c : String) (h1 : statusLe a b = true)
    (h2 : statusLe b c = true) : statusLe a c = true := by
  simp only [statusLe, decide_eq_true_eq] at *
  rcases h1 with rfl | ⟨rfl, hb⟩ | ⟨rfl, hb⟩
  · exact h2
  · rcases hb with rfl | rfl | rfl <;>
      rcases h2 with rfl | ⟨h, _⟩ | ⟨h, hc⟩ <;> simp_all
  · rcases hb with rfl | rfl <;>
      rcases h2 with rfl | ⟨h, _⟩ | ⟨h, _⟩ <;> simp_all

/-- A terminal status is absorbing in the forward order. -/
theorem statusLe_terminal (a b : String) (ha : a = "completed" ∨ a = "failed")
    (h : statusLe a b = true) : b = a := by
  simp only [statusLe, decide_eq_true_eq] at h
  rcases ha with rfl | rfl <;> rcases h with rfl | ⟨h, _⟩ | ⟨h, _⟩ <;> simp_all

/-- Along a disciplined local-mode trace, the statuses a job's reads
observe are pairwise ordered by the forward status order, and every
future observation dominates the currently stored status. -/
theorem observed_pairwise (j : String) (s : JMState) (ops : List JMOp)
    (h : ValidLocalTrace j s ops) :
    List.Pairwise (fun a b => statusLe a b = true) (observedStatuses false j s ops) ∧
    ∀ cur, storedStatus s j = some cur →
      ∀ o ∈ observedStatuses false j s ops, statusLe cur o = true := by
  induction h with
  | nil s => simp [observedStatuses]
  | createOp s jid jd t pf ops hfresh htail ih =>
    have hobs : observedStatuses false j s (JMOp.create jid jd t pf :: ops)
        = observedStatuses false j (jmStep false s (.create jid jd t pf)) ops := rfl
    rw [hobs]
    refine ⟨ih.1, ?_⟩
    intro cur hcur o ho
    by_cases hj : jid = j
    · subst hj
      simp [storedStatus, hfresh rfl] at hcur
    · have hpres : storedStatus (jmStep false s (.create jid jd t pf)) j
          = storedStatus s j := by
        simp [jmStep, createJob, storedStatus,
          lookup_alPut_ne jid j _ _ (fun hh => hj hh.symm)]
      exact ih.2 cur (by rw [hpres]; exact hcur) o ho
  | updateOp s jid st res err t uf ops hord htail ih =>
    have hobs : observedStatuses false j s (JMOp.update jid st res err t uf :: ops)
        = observedStatuses false j (jmStep false s (.update jid st res err t uf)) ops := rfl
    rw [hobs]
    refine ⟨ih.1, ?_⟩
    intro cur hcur o ho
    by_cases hj : jid = j
    · subst hj
      obtain ⟨it, hit, hst⟩ : ∃ it, s.localJobs.lookup jid = some it ∧ it.status = some cur := by
        unfold storedStatus at hcur
        cases hlk : s.localJobs.lookup jid with
        | none => rw [hlk] at hcur; simp at hcur
        | some it => rw [hlk] at hcur; exact ⟨it, rfl, by simpa using hcur⟩
      have hle : statusLe cur st = true := by
        have h0 := hord rfl
        rw [hcur] at h0
        exact h0
      have hstep : storedStatus (jmStep false s (.update jid st res err t uf)) jid
          = some st := by
        simp [jmStep, updateJobStatus, hit, storedStatus, lookup_alPut_self, mergeUpdate]
      exact statusLe_trans cur st o hle (ih.2 st hstep o ho)
    · have hpres : storedStatus (jmStep false s (.update jid st res err t uf)) j
          = storedStatus s j := by
        simp only [jmStep, updateJobStatus, Bool.false_eq_true, if_false]
        cases hlk : s.localJobs.lookup jid with
        | none => simp [hlk, storedStatus]
        | some it =>
          simp [hlk, storedStatus, lookup_alPut_ne jid j _ _ (fun hh => hj hh.symm)]
      exact ih.2 cur (by rw [hpres]; exact hcur) o ho
  | readOp s jid gf ops htail ih =>
    by_cases hj : jid = j
    · subst hj
      have hget : (getJobStatus false gf s jid).bind Item.status = storedStatus s jid := by
        simp [getJobStatus, storedStatus]
      have hobs : observedStatuses false jid s (JMOp.read jid gf :: ops)
          = match storedStatus s jid with
            | some st => st :: observedStatuses false jid s ops
            | none => observedStatuses false jid s ops := by
        simp [observedStatuses, hget]
      cases hstored : storedStatus s jid with
      | none =>
        rw [hobs, hstored]
        exact ⟨ih.1, fun cur hcur => nomatch hcur⟩
      | some st =>
        rw [hobs, hstored]
        constructor
        · exact List.pairwise_cons.mpr ⟨fun o ho => ih.2 st hstored o ho, ih.1⟩
        · intro cur hcur o ho
          injection hcur with hcur
          subst hcur
          rcases List.mem_cons.mp ho with rfl | ho2
          · exact statusLe_refl _
          · exact ih.2 _ hstored o ho2
    · have hobs : observedStatuses false j s (JMOp.read jid gf :: ops)
          = observedStatuses false j s ops := by
        simp [observedStatuses, hj]
      rw [hobs]
      exact ih

mutual

/-- Decimal-then-float conversion round-trips on Decimal-free values. -/
theorem roundtripV : ∀ (x : PyVal), noDecimalV x →
    convDecimalsToFloats (convFloatsToDecimals x) = x
  | .pnone, _ => rfl
  | .pbool _, _ => rfl
  | .pint _, _ => rfl
  | .pstr _, _ => rfl
  | .pfloat f, _ => by
    show PyVal.pfloat (floatOfDecimal (decimalOfFloat f)) = .pfloat f
    rw [floatOfDecimal_decimalOfFloat]
  | .pdec _, h => False.elim h
  | .plist l, h => by
    show PyVal.plist (convDecimalsToFloatsL (convFloatsToDecimalsL l)) = .plist l
    rw [roundtripL l h]
  | .pdict d, h => by
    show PyVal.pdict (convDecimalsToFloatsD (convFloatsToDecimalsD d)) = .pdict d
    rw [roundtripD d h]

/-- Round-trip on lists. -/
theorem roundtripL : ∀ (l : PyList), noDecimalL l →
    convDecimalsToFloatsL (convFloatsToDecimalsL l) = l
  | .nil, _ => rfl
  | .cons v tl, h => by
    show PyList.cons (convDecimalsToFloats (convFloatsToDecimals v))
      (convDecimalsToFloatsL (convFloatsToDecimalsL tl)) = .cons v tl
    rw [roundtripV v h.1, roundtripL tl h.2]

/-- Round-trip on dicts. -/
theorem roundtripD : ∀ (d : PyDict), noDecimalD d →
    convDecimalsToFloatsD (convFloatsToDecimalsD d) = d
  | .nil, _ => rfl
  | .cons k v tl, h => by
    show PyDict.cons k (convDecimalsToFloats (convFloatsToDecimals v))
      (convDecimalsToFloatsD (convFloatsToDecimalsD tl)) = .cons k v tl
    rw [roundtripV v h.1, roundtripD tl h.2]

end

mutual

/-- `convert_floats_to_decimals` preserves the structural skeleton. -/
theorem skelConvFDV : ∀ (x : PyVal), skelV (convFloatsToDecimals x) = skelV x
  | .pnone => rfl
  | .pbool _ => rfl
  | .pint _ => rfl
  | .pstr _ => rfl
  | .pfloat _ => rfl
  | .pdec _ => rfl
  | .plist l => by
    show Skel.slist (skelL (convFloatsToDecimalsL l)) = Skel.slist (skelL l)
    rw [skelConvFDL l]
  | .pdict d => by
    show Skel.sdict (skelD (convFloatsToDecimalsD d)) = Skel.sdict (skelD d)
    rw [skelConvFDD d]

/-- List case. -/
theorem skelConvFDL : ∀ (l : PyList), skelL (convFloatsToDecimalsL l) = skelL l
  | .nil => rfl
  | .cons v tl => by
    show SkelList.cons (skelV (convFloatsToDecimals v)) (skelL (convFloatsToDecimalsL tl))
      = SkelList.cons (skelV v) (skelL tl)
    rw [skelConvFDV v, skelConvFDL tl]

/-- Dict case. -/
theorem skelConvFDD : ∀ (d : PyDict), skelD (convFloatsToDecimalsD d) = skelD d
  | .nil => rfl
  | .cons k v tl => by
    show SkelDict.cons k (skelV (convFloatsToDecimals v)) (skelD (convFloatsToDecimalsD tl))
      = SkelDict.cons k (skelV v) (skelD tl)
    rw [skelConvFDV v, skelConvFDD tl]

end

mutual

/-- `convert_decimals_to_floats` preserves the structural skeleton. -/
theorem skelConvDFV : ∀ (x : PyVal), skelV (convDecimalsToFloats x) = skelV x
  | .pnone => rfl
  | .pbool _ => rfl
  | .pint _ => rfl
  | .pstr _ => rfl
  | .pfloat _ => rfl
  | .pdec _ => rfl
  | .plist l => by
    show Skel.slist (skelL (convDecimalsToFloatsL l)) = Skel.slist (skelL l)
    rw [skelConvDFL l]
  | .pdict d => by
    show Skel.sdict (skelD (convDecimalsToFloatsD d)) = Skel.sdict (skelD d)
    rw [skelConvDFD d]

/-- List case. -/
theorem skelConvDFL : ∀ (l : PyList), skelL (convDecimalsToFloatsL l) = skelL l
  | .nil => rfl
  | .cons v tl => by
    show SkelList.cons (skelV (convDecimalsToFloats v)) (skelL (convDecimalsToFloatsL tl))
      = SkelList.cons (skelV v) (skelL tl)
    rw [skelConvDFV v, skelConvDFL tl]

/-- Dict case. -/
theorem skelConvDFD : ∀ (d : PyDict), skelD (convDecimalsToFloatsD d) = skelD d
  | .nil => rfl
  | .cons k v tl => by
    show SkelDict.cons k (skelV (convDecimalsToFloats v)) (skelD (convDecimalsToFloatsD tl))
      = SkelDict.cons k (skelV v) (skelD tl)
    rw [skelConvDFV v, skelConvDFD tl]

end

/-- Membership of a key (Python `in`) coincides with `dict.get` finding a
value. -/
theorem objHasKey_iff (kvs : List (String × JVal)) (k : String) :
    objHasKey (.jobj kvs) k = true ↔ ∃ v, objGet (.jobj kvs) k = some v := by
  simp only [objHasKey, objKeys, objGet, List.contains_eq_any_beq, List.any_eq_true,
    Option.map_eq_some']
  constructor
  · rintro ⟨x, hx, hbeq⟩
    have hkx : k = x := beq_iff_eq.mp hbeq
    obtain ⟨p, hp, hpx⟩ := List.mem_map.mp hx
    have hfind : (kvs.reverse.find? (fun p => p.1 == k)).isSome := by
      rw [List.find?_isSome]
      exact ⟨p, List.mem_reverse.mpr hp, beq_iff_eq.mpr (hpx.trans hkx.symm)⟩
    obtain ⟨q, hq⟩ := Option.isSome_iff_exists.mp hfind
    exact ⟨q.2, q, hq, rfl⟩
  · rintro ⟨v, q, hq, hv⟩
    have hqmem := List.find?_some hq
    have hmem := List.mem_reverse.mp (List.mem_of_find?_eq_some hq)
    exact ⟨q.1, List.mem_map.mpr ⟨q, hmem, rfl⟩, beq_iff_eq.mpr (beq_iff_eq.mp hqmem).symm⟩

/-- The code's per-item check is exactly the amended structural
condition. -/
theorem foodItemOk_iff (it : JVal) : foodItemOk it = true ↔ foodItemStructSpec it := by
  cases it with
  | jobj kvs =>
    constructor
    · intro h
      simp only [foodItemOk, Bool.and_eq_true, List.all_eq_true] at h
      obtain ⟨⟨⟨hkeys, hserv⟩, hing⟩, hnut⟩ := h
      refine ⟨⟨kvs, rfl⟩, hkeys, ?_, ?_, ?_⟩
      · obtain ⟨sv, hsv⟩ := (objHasKey_iff kvs "serving").mp (hkeys "serving" (by simp [requiredFoodKeys]))
        rw [hsv] at hserv
        cases sv with
        | jobj skvs =>
          simp only [Option.getD_some, servingOk, Bool.and_eq_true] at hserv
          exact ⟨skvs, hsv, hserv.1, hserv.2⟩
        | jnull => simp [servingOk] at hserv
        | jbool b => simp [servingOk] at hserv
        | jnum q => simp [servingOk] at hserv
        | jnan => simp [servingOk] at hserv
        | jinf => simp [servingOk] at hserv
        | jneginf => simp [servingOk] at hserv
        | jstr s => simp [servingOk] at hserv
        | jarr l => simp [servingOk] at hserv
      · obtain ⟨iv, hiv⟩ := (objHasKey_iff kvs "ingredients").mp (hkeys "ingredients" (by simp [requiredFoodKeys]))
        rw [hiv] at hing
        cases iv with
        | jarr l =>
          simp only [Option.getD_some, Bool.not_eq_true'] at hing
          exact ⟨l, hiv, by simpa using hing⟩
        | jnull => simp at hing
        | jbool b => simp at hing
        | jnum q => simp at hing
        | jnan => simp at hing
        | jinf => simp at hing
        | jneginf => simp at hing
        | jstr s => simp at hing
        | jobj o => simp at hing
      · obtain ⟨nv, hnv⟩ := (objHasKey_iff kvs "nutrients_g").mp (hkeys "nutrients_g" (by simp [requiredFoodKeys]))
        rw [hnv] at hnut
        cases nv with
        | jobj nkvs => exact ⟨nkvs, hnv⟩
        | jnull => simp at hnut
        | jbool b => simp at hnut
        | jnum q => simp at hnut
        | jnan => simp at hnut
        | jinf => simp at hnut
        | jneginf => simp at hnut
        | jstr s => simp at hnut
        | jarr l => simp at hnut
    · rintro ⟨-, hkeys, ⟨skvs, hsv, hdesc, hgrams⟩, ⟨ings, hiv, hne⟩, ⟨nkvs, hnv⟩⟩
      simp only [foodItemOk, Bool.and_eq_true, List.all_eq_true]
      refine ⟨⟨⟨hkeys, ?_⟩, ?_⟩, ?_⟩
      · rw [hsv]
        simp [servingOk, hdesc, hgrams]
      · rw [hiv]
        simpa using hne
      · rw [hnv]
        rfl
  | jnull => simp [foodItemOk, foodItemStructSpec]
  | jbool b => simp [foodItemOk, foodItemStructSpec]
  | jnum q => simp [foodItemOk, foodItemStructSpec]
  | jnan => simp [foodItemOk, foodItemStructSpec]
  | jinf => simp [foodItemOk, foodItemStructSpec]
  | jneginf => simp [foodItemOk, foodItemStructSpec]
  | jstr s => simp [foodItemOk, foodItemStructSpec]
  | jarr l => simp [foodItemOk, foodItemStructSpec]

/-- The prompt path only returns `.ok` after the validator accepted the
parsed list for the expected count. -/
theorem analyzeOk_validated (completion : List Char) (foods : List Food) (items : List JVal)
    (h : analyzeWithComprehensivePrompt completion foods = .ok items) :
    validateResponseStructure (.jarr items) foods.length = true := by
  unfold analyzeWithComprehensivePrompt analyzeRepairPath at h
  simp only [] at h
  split at h
  · cases h
  · cases h
  · split at h
    · split at h
      · simp_all
      · split at h
        · split at h
          · split at h
            · simp_all
            · cases h
          · cases h
        · cases h
    · split at h
      · split at h
        · split at h
          · simp_all
          · cases h
        · cases h
      · cases h
    · split at h
      · split at h
        · split at h
          · simp_all
          · cases h
        · cases h
      · cases h

/-- Creating a job locally and running the food-analysis worker on it
leaves the stored status `completed`. -/
theorem processRun_completed (s : JMState) (jid : String) (jd : JVal) (foods : List Food)
    (completion : List Char) (t0 t1 t2 : Nat) :
    (getJobStatus false false
      (processFoodAnalysisRun false false false (createJob false false s jid jd t0)
        jid foods completion t1 t2) jid).bind Item.status = some "completed" := by
  simp [processFoodAnalysisRun, createJob, updateJobStatus, getJobStatus,
    lookup_alPut_self, mergeUpdate, newJobItem]

/-! ## Claims -/

/-- C7 counterexample: the structural repair is not idempotent.  For
`x = "a,\nb,"` one application drops the dangling last line, giving
`"a,"`, and a second application drops the remaining line, giving `""`;
the claim `repair(repair(x)) = repair(x)` fails (and `x`'s already
balanced bracket counts also refute the no-op reading). -/
theorem claim_C7_counterexample :
    repairStruct (repairStruct ("a,\nb,".data)) ≠ repairStruct ("a,\nb,".data) := by
  decide

/-- C7 amended: the repair is idempotent on every input whose repaired
form is a fixed point of each repair step — no closers to append (open
counts at most close counts for braces and for brackets), no comma
before a closer, and a last line not ending in `':'` or `','`.  In
general a second application can drop a further line, so unconditional
idempotence fails. -/
theorem claim_C7_amended (x : List Char)
    (hb : (repairStruct x).count '{' ≤ (repairStruct x).count '}')
    (hk : (repairStruct x).count '[' ≤ (repairStruct x).count ']')
    (hc : commaSub (repairStruct x) = repairStruct x)
    (hl : endsColonComma (pyStrip ((splitNl (repairStruct x)).getLastD [])) = false) :
    repairStruct (repairStruct x) = repairStruct x := by
  have hap : appendClosers (repairStruct x) = repairStruct x := by
    simp [appendClosers, Nat.sub_eq_zero_of_le hb, Nat.sub_eq_zero_of_le hk]
  show balanceJsonStructure (appendClosers (repairStruct x)) = repairStruct x
  rw [hap]
  simp only [List.getLastD_eq_getLast?] at hl
  simp [balanceJsonStructure, hc, hl]

/-- C7 witness: the input `"[1, 2"` repairs to `"[1, 2]"`, which meets
the amended conditions, and a second repair leaves it unchanged. -/
theorem claim_C7_witness :
    (repairStruct ("[1, 2".data)).count '{' ≤ (repairStruct ("[1, 2".data)).count '}' ∧
    (repairStruct ("[1, 2".data)).count '[' ≤ (repairStruct ("[1, 2".data)).count ']' ∧
    commaSub (repairStruct ("[1, 2".data)) = repairStruct ("[1, 2".data) ∧
    endsColonComma (pyStrip ((splitNl (repairStruct ("[1, 2".data))).getLastD [])) = false ∧
    repairStruct (repairStruct ("[1, 2".data)) = repairStruct ("[1, 2".data) :=
  ⟨by decide, by decide, by decide, by decide,
    claim_C7_amended ("[1, 2".data) (by decide) (by decide) (by decide) (by decide)⟩

/-- C8 counterexample: for `x = "{\n\"a\":"` the final non-empty line
ends with a colon, yet the repair appends the missing `'}'` first, so
the dangling line is never dropped: the result is `"{\n\"a\":}"`, whose
last line still starts with the dangling fragment `"a":` — the closers
were not computed on a string with the line removed. -/
theorem claim_C8_counterexample :
    endsColonComma (pyStrip (((splitNl ("\x7b\n\x22a\x22:".data)).filter
      (fun ln => !ln.isEmpty)).getLastD [])) = true ∧
    repairStruct ("\x7b\n\x22a\x22:".data) = ("\x7b\n\x22a\x22:\x7d".data) ∧
    ((splitNl (repairStruct ("\x7b\n\x22a\x22:".data))).getLastD []).take 4
      = ("\x22a\x22:".data) := by
  exact ⟨by decide, by decide, by decide⟩

/-- C8 amended: only when no closers are pre-appended (open counts at
most close counts for both braces and brackets) and the literal last
line of the comma-cleaned candidate — not its last non-empty line —
ends, after stripping, with `':'` or `','`, does the repair drop that
line; the appended closers are then computed on the reduced string by
the closing loop. -/
theorem claim_C8_amended (x : List Char)
    (hb : x.count '{' ≤ x.count '}') (hk : x.count '[' ≤ x.count ']')
    (hl : endsColonComma (pyStrip ((splitNl (commaSub x)).getLastD [])) = true) :
    repairStruct x
      = closeLoop (openCountI (joinNl ((splitNl (commaSub x)).dropLast))).toNat
          (joinNl ((splitNl (commaSub x)).dropLast)) := by
  have hap : appendClosers x = x := by
    simp [appendClosers, Nat.sub_eq_zero_of_le hb, Nat.sub_eq_zero_of_le hk]
  show balanceJsonStructure (appendClosers x) = _
  rw [hap]
  simp only [List.getLastD_eq_getLast?] at hl
  simp [balanceJsonStructure, hl]

/-- C8 witness: `"{}\n2,"` is balanced, its last line ends with a comma,
and the repair drops that line, leaving `"{}"`. -/
theorem claim_C8_witness :
    ("\x7b\x7d\n2,".data).count '{' ≤ ("\x7b\x7d\n2,".data).count '}' ∧
    ("\x7b\x7d\n2,".data).count '[' ≤ ("\x7b\x7d\n2,".data).count ']' ∧
    endsColonComma (pyStrip ((splitNl (commaSub ("\x7b\x7d\n2,".data))).getLastD [])) = true ∧
    repairStruct ("\x7b\x7d\n2,".data)
      = closeLoop (openCountI (joinNl ((splitNl (commaSub ("\x7b\x7d\n2,".data))).dropLast))).toNat
          (joinNl ((splitNl (commaSub ("\x7b\x7d\n2,".data))).dropLast)) :=
  ⟨by decide, by decide, by decide,
    claim_C8_amended ("\x7b\x7d\n2,".data) (by decide) (by decide) (by decide)⟩

/-- C9: `_repair_incomplete_json` is total and self-checking — whenever
it returns a string rather than `None`, that string is the structural
repair of its input and `json.loads` succeeds on it, so callers never
receive an unparseable repaired string. -/
theorem claim_C9 (x s : List Char) (h : repairIncompleteJson x = some s) :
    (pyJsonLoads s).isSome = true ∧ s = repairStruct x := by
  unfold repairIncompleteJson at h
  by_cases hp : (pyJsonLoads (repairStruct x)).isSome = true
  · rw [if_pos hp] at h
    have hs : s = repairStruct x := (Option.some.inj h).symm
    subst hs
    exact ⟨hp, rfl⟩
  · rw [if_neg hp] at h
    cases h

/-- C9 witness: `"[1, 2"` is repaired to `"[1, 2]"`, which parses. -/
theorem claim_C9_witness :
    repairIncompleteJson ("[1, 2".data) = some ("[1, 2]".data) ∧
    (pyJsonLoads ("[1, 2]".data)).isSome = true ∧ ("[1, 2]".data) = repairStruct ("[1, 2".data) :=
  ⟨by decide, claim_C9 ("[1, 2".data) ("[1, 2]".data) (by decide)⟩

/-- C1: for every food list and every completion text — including text
with no `'['` at all and text that still fails to parse after repair —
`analyze_foods_comprehensive` returns a value: either a list the
validator accepted, or the deterministic fallback list; it never raises.
Consequently a `food_analysis` job processed by `process_food_analysis`
(store writes succeeding) ends with stored status `completed`, never
`failed`, for these recoverable conditions. -/
theorem claim_C1 (foods : List Food) (completion : List Char) (s : JMState)
    (jid : String) (jd : JVal) (t0 t1 t2 : Nat) :
    (analyzeFoodsComprehensive completion foods = fallbackComprehensive foods ∨
      ∃ items, analyzeWithComprehensivePrompt completion foods = .ok items ∧
        analyzeFoodsComprehensive completion foods = items ∧
        validateResponseStructure (.jarr items) foods.length = true) ∧
    (getJobStatus false false
      (processFoodAnalysisRun false false false (createJob false false s jid jd t0)
        jid foods completion t1 t2) jid).bind Item.status = some "completed" := by
  constructor
  · cases h : analyzeWithComprehensivePrompt completion foods with
    | error e =>
      left
      simp [analyzeFoodsComprehensive, h]
    | ok items =>
      right
      exact ⟨items, rfl, by simp [analyzeFoodsComprehensive, h],
        analyzeOk_validated completion foods items h⟩
  · exact processRun_completed s jid jd foods completion t0 t1 t2

/-- A food record accepted by the validator whose ingredient portions
sum to 50, not 100. -/
def cexFoodItem : JVal :=
  .jobj
    [("food_name", .jstr "toast"),
     ("meal_type", .jstr "breakfast"),
     ("serving", .jobj [("description", .jstr "one slice"), ("grams", .jnum 100)]),
     ("ingredients", .jarr [.jobj [("name", .jstr "bread"), ("portion_percent", .jnum 50)]]),
     ("nutrients_g", .jobj [])]

/-- C2 counterexample: `_validate_response_structure` accepts a parsed
value whose ingredient portions sum to 50, far outside the 100 ± 0.1
invariant — the validator does not recompute the sum invariants. -/
theorem claim_C2_counterexample :
    validateResponseStructure (.jarr [cexFoodItem]) 1 = true ∧
    ¬ |specPortionSum cexFoodItem - 100| ≤ 1 / 10 := by
  constructor
  · decide
  · have h : specPortionSum cexFoodItem = 50 := by
      simp [specPortionSum, cexFoodItem, objGet]
    rw [h]
    norm_num

/-- C2 amended: the validator's acceptance is exactly the structural
condition — a list of the expected length whose items each have the
required keys, a `serving` dict holding `description` and `grams`, a
non-empty `ingredients` list and a `nutrients_g` dict; neither sum
invariant is recomputed, so accepted values may violate them. -/
theorem claim_C2_amended (data : JVal) (n : Nat) :
    validateResponseStructure data n = true ↔
      ∃ items, data = .jarr items ∧ items.length = n ∧
        ∀ it ∈ items, foodItemStructSpec it := by
  cases data with
  | jarr items =>
    simp only [validateResponseStructure, Bool.and_eq_true, beq_iff_eq, List.all_eq_true]
    constructor
    · rintro ⟨hlen, hall⟩
      exact ⟨items, rfl, hlen, fun it hit => (foodItemOk_iff it).mp (hall it hit)⟩
    · rintro ⟨items2, heq, hlen, hall⟩
      injection heq with heq
      subst heq
      exact ⟨hlen, fun it hit => (foodItemOk_iff it).mpr (hall it hit)⟩
  | jnull => simp [validateResponseStructure]
  | jbool b => simp [validateResponseStructure]
  | jnum q => simp [validateResponseStructure]
  | jnan => simp [validateResponseStructure]
  | jinf => simp [validateResponseStructure]
  | jneginf => simp [validateResponseStructure]
  | jstr str => simp [validateResponseStructure]
  | jobj kvs => simp [validateResponseStructure]

/-- A trace that completes a job and then regresses it to processing;
the store applies the regression. -/
def c3BadTrace : List JMOp :=
  [.create "j" .jnull 0 false,
   .update "j" "completed" none none 1 false,
   .read "j" false,
   .update "j" "processing" none none 2 false,
   .read "j" false]

/-- C3 counterexample: `update_job_status` enforces no state machine —
after `completed` is observed, a later `processing` update is applied
and observed, so the observed sequence `[completed, processing]` is not
a subsequence of either allowed chain. -/
theorem claim_C3_counterexample :
    observedStatuses false "j" emptyJM c3BadTrace = ["completed", "processing"] ∧
    ¬ List.Pairwise (fun a b => statusLe a b = true)
      (observedStatuses false "j" emptyJM c3BadTrace) := by
  constructor <;> decide

/-- C3 amended: the store is last-write-wins and itself enforces no
ordering; but on any single-backend (local-mode) trace whose creates use
fresh ids and whose updates each write a status following the currently
stored one in the order queued → processing → completed|failed, the
statuses observed for a job are pairwise ordered by that forward order —
in particular an observed terminal status is never followed by a
different one. -/
theorem claim_C3_amended (j : String) (s : JMState) (ops : List JMOp)
    (h : ValidLocalTrace j s ops) :
    List.Pairwise (fun a b => statusLe a b = true) (observedStatuses false j s ops) :=
  (observed_pairwise j s ops h).1

/-- A disciplined trace: create, mark processing, complete, then keep
reading. -/
def c3GoodTrace : List JMOp :=
  [.create "j" .jnull 0 false,
   .read "j" false,
   .update "j" "processing" none none 1 false,
   .read "j" false,
   .update "j" "completed" (some .jnull) none 2 false,
   .read "j" false,
   .read "j" false]

/-- C3 witness: the disciplined trace is valid and its observations are
monotone. -/
theorem claim_C3_witness :
    List.Pairwise (fun a b => statusLe a b = true)
      (observedStatuses false "j" emptyJM c3GoodTrace) :=
  claim_C3_amended "j" emptyJM c3GoodTrace
    (by
      refine .createOp _ _ _ _ _ _ (fun _ => rfl) ?_
      refine .readOp _ _ _ _ ?_
      refine .updateOp _ _ _ _ _ _ _ _ (fun _ => by decide) ?_
      refine .readOp _ _ _ _ ?_
      refine .updateOp _ _ _ _ _ _ _ _ (fun _ => by decide) ?_
      refine .readOp _ _ _ _ ?_
      refine .readOp _ _ _ _ ?_
      exact .nil _)

/-- The store after creating a local job and completing it twice with
different results. -/
def c4FinalState : JMState :=
  (updateJobStatus false false
    (updateJobStatus false false
      (updateJobStatus false false
        (createJob false false emptyJM "j" .jnull 0)
        "j" "processing" none none 1).1
      "j" "completed" (some (.jnum 1)) none 2).1
    "j" "completed" (some (.jnum 2)) none 3).1

/-- C4 counterexample: a second `completed` update is not a first-write-
wins no-op — it overwrites the stored result with the second value (and
both calls return `True`; no warning path exists). -/
theorem claim_C4_counterexample :
    ((c4FinalState.localJobs.lookup "j").bind Item.result = some (.jnum 2) ∧
      (updateJobStatus false false
        (updateJobStatus false false
          (updateJobStatus false false
            (createJob false false emptyJM "j" .jnull 0)
            "j" "processing" none none 1).1
          "j" "completed" (some (.jnum 1)) none 2).1
        "j" "completed" (some (.jnum 2)) none 3).2 = true) ∧
    some (JVal.jnum 2) ≠ some (JVal.jnum 1) := by
  refine ⟨⟨rfl, rfl⟩, ?_⟩
  intro h
  rw [Option.some.injEq] at h
  injection h with h
  exact absurd h (by norm_num)

/-- C4 amended: terminal transitions are last-write-wins: completing an
existing job twice leaves the second result stored, both calls return
`True` (no crash), and the status stays `completed`; no warning is
logged and the first result is lost. -/
theorem claim_C4_amended (s : JMState) (jid : String) (it : Item) (r1 r2 : JVal)
    (t1 t2 : Nat) (h : s.localJobs.lookup jid = some it) :
    (updateJobStatus false false s jid "completed" (some r1) none t1).2 = true ∧
    (updateJobStatus false false
        (updateJobStatus false false s jid "completed" (some r1) none t1).1
        jid "completed" (some r2) none t2).2 = true ∧
    (((updateJobStatus false false
        (updateJobStatus false false s jid "completed" (some r1) none t1).1
        jid "completed" (some r2) none t2).1.localJobs.lookup jid).bind Item.result
      = some r2) ∧
    (((updateJobStatus false false
        (updateJobStatus false false s jid "completed" (some r1) none t1).1
        jid "completed" (some r2) none t2).1.localJobs.lookup jid).bind Item.status
      = some "completed") := by
  simp [updateJobStatus, h, lookup_alPut_self, mergeUpdate]

/-- C4 witness: the amended last-write-wins behaviour at a concrete
freshly created job. -/
theorem claim_C4_witness :
    (updateJobStatus false false (createJob false false emptyJM "w" .jnull 0) "w"
      "completed" (some (.jnum 1)) none 1).2 = true ∧
    (updateJobStatus false false
        (updateJobStatus false false (createJob false false emptyJM "w" .jnull 0) "w"
          "completed" (some (.jnum 1)) none 1).1
        "w" "completed" (some (.jnum 2)) none 2).2 = true ∧
    (((updateJobStatus false false
        (updateJobStatus false false (createJob false false emptyJM "w" .jnull 0) "w"
          "completed" (some (.jnum 1)) none 1).1
        "w" "completed" (some (.jnum 2)) none 2).1.localJobs.lookup "w").bind Item.result
      = some (.jnum 2)) ∧
    (((updateJobStatus false false
        (updateJobStatus false false (createJob false false emptyJM "w" .jnull 0) "w"
          "completed" (some (.jnum 1)) none 1).1
        "w" "completed" (some (.jnum 2)) none 2).1.localJobs.lookup "w").bind Item.status
      = some "completed") :=
  claim_C4_amended (createJob false false emptyJM "w" .jnull 0) "w"
    (newJobItem "w" .jnull 0) (.jnum 1) (.jnum 2) 1 2 rfl

/-- C5 counterexample: a record written only to the fallback map
(because the primary `put_item` raised at creation) is invisible to a
read while the primary is reachable — `get_item` finds nothing and
`get_job_status` returns `None` without consulting the fallback. -/
theorem claim_C5_counterexample :
    getJobStatus true false (createJob true true emptyJM "j" .jnull 0) "j" = none ∧
    (createJob true true emptyJM "j" .jnull 0).localJobs.lookup "j"
      = some (newJobItem "j" .jnull 0) :=
  ⟨rfl, rfl⟩

/-- C5 amended: with the primary available, a read returns exactly the
primary's answer (`None` included) and never consults the fallback map;
the fallback is read only when the primary raises, or when AWS is
unavailable altogether. -/
theorem claim_C5_amended (s : JMState) (jid : String) (gf : Bool) :
    getJobStatus true false s jid = s.primary.lookup jid ∧
    getJobStatus true true s jid = s.localJobs.lookup jid ∧
    getJobStatus false gf s jid = s.localJobs.lookup jid :=
  ⟨rfl, rfl, rfl⟩

/-- C6 counterexample: an `update_job_status` whose primary write raises
is dropped when the job is not already in the fallback map — the state
is unchanged and the call returns `False`; the fallback write promised
by the claim does not happen. -/
theorem claim_C6_counterexample :
    updateJobStatus true true (createJob true false emptyJM "j" .jnull 0) "j"
      "processing" none none 1 = (createJob true false emptyJM "j" .jnull 0, false) ∧
    (createJob true false emptyJM "j" .jnull 0).localJobs.lookup "j" = none :=
  ⟨rfl, rfl⟩

/-- C6 amended: on primary failure, `create_job` always writes the new
record to the fallback map, but `update_job_status` applies the update
to the fallback only when the job id is already present there;
otherwise it drops the write and returns `False`. -/
theorem claim_C6_amended (s : JMState) (jid : String) (jd : JVal) (t : Nat)
    (st : String) (res : Option JVal) (err : Option String) (tu : Nat) :
    (createJob true true s jid jd t).localJobs.lookup jid = some (newJobItem jid jd t) ∧
    (∀ it, s.localJobs.lookup jid = some it →
      updateJobStatus true true s jid st res err tu
        = ({ s with localJobs := alPut jid (mergeUpdate it st res err tu) s.localJobs },
            true)) ∧
    (s.localJobs.lookup jid = none →
      updateJobStatus true true s jid st res err tu = (s, false)) := by
  refine ⟨?_, ?_, ?_⟩
  · simp [createJob, lookup_alPut_self]
  · intro it h
    simp [updateJobStatus, h]
  · intro h
    simp [updateJobStatus, h]

/-- C6 witness: the amended behaviour at concrete states — a fallback
write on failed creation, and a dropped update for a job absent from the
fallback map. -/
theorem claim_C6_witness :
    (createJob true true emptyJM "w" .jnull 0).localJobs.lookup "w"
      = some (newJobItem "w" .jnull 0) ∧
    updateJobStatus true true (createJob true false emptyJM "w2" .jnull 0) "w2"
      "processing" none none 1 = (createJob true false emptyJM "w2" .jnull 0, false) :=
  ⟨(claim_C6_amended emptyJM "w" .jnull 0 "x" none none 1).1,
    (claim_C6_amended (createJob true false emptyJM "w2" .jnull 0) "w2" .jnull 0
      "processing" none none 1).2.2 rfl⟩

/-- C10: on every JSON-like value without Decimal leaves, converting
floats to Decimals and back is the identity, and each conversion
preserves the structural skeleton (keys, list order, and non-numeric
leaves). -/
theorem claim_C10 (x : PyVal) (h : noDecimalV x) :
    convDecimalsToFloats (convFloatsToDecimals x) = x ∧
    skelV (convFloatsToDecimals x) = skelV x ∧
    skelV (convDecimalsToFloats x) = skelV x :=
  ⟨roundtripV x h, skelConvFDV x, skelConvDFV x⟩

/-- A sample Python value: a dict with a float, and a list with an int
and `None`. -/
def c10Sample : PyVal :=
  .pdict (.cons "a" (.pfloat ⟨1, by decide⟩)
    (.cons "b" (.plist (.cons (.pint 3) (.cons .pnone .nil))) .nil))

/-- C10 witness: the round-trip and skeleton preservation at a concrete
nested value. -/
theorem claim_C10_witness :
    noDecimalV c10Sample ∧
    (convDecimalsToFloats (convFloatsToDecimals c10Sample) = c10Sample ∧
      skelV (convFloatsToDecimals c10Sample) = skelV c10Sample ∧
      skelV (convDecimalsToFloats c10Sample) = skelV c10Sample) := by
  have hnd : noDecimalV c10Sample := by
    simp [c10Sample, noDecimalV, noDecimalD, noDecimalL]
  exact ⟨hnd, claim_C10 c10Sample hnd⟩

/-- C2 witness: the amended characterization applied to the concrete
accepted record. -/
theorem claim_C2_witness :
    ∃ items, (JVal.jarr [cexFoodItem]) = .jarr items ∧ items.length = 1 ∧
      ∀ it ∈ items, foodItemStructSpec it :=
  (claim_C2_amended (.jarr [cexFoodItem]) 1).mp (by decide)
